import Mathlib

/-!
Verification of the batch PDF data extractor (`src/app.py`).

The program is a batch loop around an external generative-model API call:
`extract_structured_data` cleans and JSON-parses the model's text reply,
and `main` runs the batch over the uploaded files, collects result rows,
tracks failed file names in session state, and offers a retry pass over
the failed names.  This file embeds those functions shallowly: the model
call is abstracted as an oracle (`ModelOutcome`: either a returned text or
a raised exception), and everything downstream of it — response cleaning,
JSON parsing, truthiness, row construction, batch and retry loops, the
session state updates and the CSV export — is translated from the source.

Python details kept faithfully:
* `str.strip` removes ASCII whitespace from both ends (`pyStrip`).
* The fence-stripping slices fixed offsets, `response_text[7:-3]` /
  `response_text[3:-3]`, with Python's clamping slice semantics
  (`pySliceDrop`), then strips again.
* `json.loads` parses strictly (whole input, no unescaped control
  characters in strings, `NaN`/`Infinity` accepted); duplicate object
  keys resolve to the last occurrence on lookup (`objGet`).
* `if extracted_data:` tests Python truthiness of the parsed value, so a
  parsed-but-falsy reply (`{}`, `[]`, `""`, `0`, `null`, `false`) takes
  the failure branch (`pyTruthy`).
* `extracted_data.get(field, "Not Found")` raises `AttributeError` when
  the parsed value is truthy but not a dict; this exception is NOT inside
  the `try` of `extract_structured_data` — it aborts the whole run.  The
  batch/retry loops therefore carry an explicit `crash` component.
* On a crash, `st.session_state` keeps the per-iteration appends made so
  far; the retry's `failed_files = new_failures` assignment (line 218)
  does not run.
-/

namespace App

/-- ASCII whitespace stripped by Python's `str.strip()`. -/
def pyWhitespace (c : Char) : Bool :=
  c == ' ' || c == '\t' || c == '\n' || c == '\r' || c == '\x0b' || c == '\x0c'

/-- `str.strip()` on a character list. -/
def pyStripList (l : List Char) : List Char :=
  ((l.dropWhile pyWhitespace).reverse.dropWhile pyWhitespace).reverse

/-- Python `s.strip()`. -/
def pyStrip (s : String) : String := String.mk (pyStripList s.data)

/-- Python slice `l[a:-b]` (clamped: empty when `a + b ≥ len`). -/
def pySliceDrop (l : List Char) (a b : Nat) : List Char :=
  (l.drop a).take (l.length - a - b)

/-- The opening marker of a JSON code fence. -/
def fenceJson : String := "```json"

/-- The generic code-fence marker. -/
def fence : String := "```"

/-- Lines 38–44 of `app.py`: strip the response text, then remove markdown
fence markers by fixed-offset slicing and strip the remainder again. -/
def cleanList (l : List Char) : List Char :=
  if fenceJson.data.isPrefixOf (pyStripList l) then
    pyStripList (pySliceDrop (pyStripList l) 7 3)
  else if fence.data.isPrefixOf (pyStripList l) then
    pyStripList (pySliceDrop (pyStripList l) 3 3)
  else pyStripList l

/-- Response cleaning on strings (lines 38–44 of `app.py`). -/
def cleanResponse (s : String) : String := String.mk (cleanList s.data)

/-- JSON values as produced by Python's `json.loads`.  A numeric literal
with optional fraction and exponent denotes the exact value `m * 10 ^ e`;
it is kept unreduced as the integer pair `(m, e)` — the only operations
performed on numbers downstream are truthiness (`m ≠ 0`) and carrying
the value in a row.  `NaN`, `Infinity` and `-Infinity` are accepted by
Python's default parser and kept as distinct constructors.  Objects keep
their entry list in source order, duplicates included; lookup resolves
to the last occurrence, like a Python dict built by repeated
assignment. -/
inductive Json where
  | null : Json
  | bool (b : Bool) : Json
  | num (m : Int) (e : Int) : Json
  | str (s : String) : Json
  | arr (elems : List Json) : Json
  | obj (entries : List (String × Json)) : Json
  | nan : Json
  | inf : Json
  | neginf : Json
deriving Repr

/-- Python truthiness (`if extracted_data:`) of a parsed JSON value.
`bool(float('nan'))` and `bool(float('inf'))` are `True` in Python. -/
def pyTruthy : Json → Bool
  | .null => false
  | .bool b => b
  | .num m _ => if m = 0 then false else true
  | .str s => !s.isEmpty
  | .arr l => !l.isEmpty
  | .obj l => !l.isEmpty
  | .nan => true
  | .inf => true
  | .neginf => true

/-- JSON structural whitespace accepted by `json.loads`. -/
def skipJsonWs (l : List Char) : List Char :=
  l.dropWhile (fun c => c == ' ' || c == '\t' || c == '\n' || c == '\r')

/-- Decode one JSON string body (after the opening quote), honouring the
escape sequences of RFC 8259; unescaped control characters are rejected,
as in Python's strict default.  Returns the decoded characters and the
input remaining after the closing quote. -/
def parseJString : List Char → Option (List Char × List Char)
  | [] => none
  | '"' :: r => some ([], r)
  | '\\' :: e :: r =>
    match e with
    | '"' => (parseJString r).map (fun p => ('"' :: p.1, p.2))
    | '\\' => (parseJString r).map (fun p => ('\\' :: p.1, p.2))
    | '/' => (parseJString r).map (fun p => ('/' :: p.1, p.2))
    | 'b' => (parseJString r).map (fun p => ('\x08' :: p.1, p.2))
    | 'f' => (parseJString r).map (fun p => ('\x0c' :: p.1, p.2))
    | 'n' => (parseJString r).map (fun p => ('\n' :: p.1, p.2))
    | 'r' => (parseJString r).map (fun p => ('\r' :: p.1, p.2))
    | 't' => (parseJString r).map (fun p => ('\t' :: p.1, p.2))
    | 'u' =>
      match r with
      | a :: b :: c :: d :: r2 =>
        let hex := fun (x : Char) =>
          if '0' ≤ x ∧ x ≤ '9' then some (x.toNat - '0'.toNat)
          else if 'a' ≤ x ∧ x ≤ 'f' then some (x.toNat - 'a'.toNat + 10)
          else if 'A' ≤ x ∧ x ≤ 'F' then some (x.toNat - 'A'.toNat + 10)
          else none
        match hex a, hex b, hex c, hex d with
        | some ha, some hb, some hc, some hd =>
          (parseJString r2).map
            (fun p => (Char.ofNat (((ha * 16 + hb) * 16 + hc) * 16 + hd) :: p.1, p.2))
        | _, _, _, _ => none
      | _ => none
    | _ => none
  | c :: r =>
    if c.toNat < 0x20 then none
    else (parseJString r).map (fun p => (c :: p.1, p.2))

/-- Fold decimal digits into a natural number. -/
def digitsToNat (ds : List Char) : Nat :=
  ds.foldl (fun acc c => acc * 10 + (c.toNat - '0'.toNat)) 0

/-- Parse a JSON number token (after an optional leading minus, already
recognised by the caller); returns its exact value as a mantissa and a
decimal exponent.  The grammar is RFC 8259's: `(0 | [1-9][0-9]*)
('.' [0-9]+)? ([eE] [+-]? [0-9]+)?`; a literal such as `01` stops after
the `0` and the stray digit is rejected downstream as trailing data, as
in Python. -/
def parseNumTail (neg : Bool) (l : List Char) : Option ((Int × Int) × List Char) :=
  let intStep : List Char × List Char :=
    match l with
    | '0' :: r => (['0'], r)
    | _ => l.span Char.isDigit
  if intStep.1.isEmpty then none
  else
    let fracStep : Option (List Char × List Char) :=
      match intStep.2 with
      | '.' :: r =>
        let p := r.span Char.isDigit
        if p.1.isEmpty then none else some (p.1, p.2)
      | _ => some ([], intStep.2)
    match fracStep with
    | none => none
    | some (fracDigits, r2) =>
      let expStep : Option (Bool × List Char × List Char) :=
        match r2 with
        | 'e' :: r | 'E' :: r =>
          match r with
          | '+' :: r3 =>
            let p := r3.span Char.isDigit
            if p.1.isEmpty then none else some (false, p.1, p.2)
          | '-' :: r3 =>
            let p := r3.span Char.isDigit
            if p.1.isEmpty then none else some (true, p.1, p.2)
          | _ =>
            let p := r.span Char.isDigit
            if p.1.isEmpty then none else some (false, p.1, p.2)
        | _ => some (false, [], r2)
      match expStep with
      | none => none
      | some (expNeg, expDigits, r3) =>
        let mantissaNat : Nat := digitsToNat (intStep.1 ++ fracDigits)
        let m : Int := if neg then -(mantissaNat : Int) else (mantissaNat : Int)
        let expVal : Int :=
          if expNeg then -(digitsToNat expDigits : Int) else (digitsToNat expDigits : Int)
        some ((m, expVal - fracDigits.length), r3)

/-- Parsing mode: a single value, the tail of an array (after `[`, at
least one element pending), or the tail of an object (after `\x7b`, at
least one entry pending). -/
inductive PMode where
  | value : PMode
  | arrTail : PMode
  | objTail : PMode

/-- The core recursive-descent JSON reader, fuel-indexed.  In `arrTail`
mode the result is wrapped as `Json.arr`, in `objTail` mode as
`Json.obj`. -/
def parseCore : Nat → PMode → List Char → Option (Json × List Char)
  | 0, _, _ => none
  | fuel + 1, .value, l =>
    match skipJsonWs l with
    | '\x7b' :: r =>
      (match skipJsonWs r with
       | '\x7d' :: r2 => some (.obj [], r2)
       | _ => parseCore fuel .objTail r)
    | '[' :: r =>
      (match skipJsonWs r with
       | ']' :: r2 => some (.arr [], r2)
       | _ => parseCore fuel .arrTail r)
    | '"' :: r => (parseJString r).map (fun p => (.str (String.mk p.1), p.2))
    | 't' :: 'r' :: 'u' :: 'e' :: r => some (.bool true, r)
    | 'f' :: 'a' :: 'l' :: 's' :: 'e' :: r => some (.bool false, r)
    | 'n' :: 'u' :: 'l' :: 'l' :: r => some (.null, r)
    | 'N' :: 'a' :: 'N' :: r => some (.nan, r)
    | 'I' :: 'n' :: 'f' :: 'i' :: 'n' :: 'i' :: 't' :: 'y' :: r => some (.inf, r)
    | '-' :: 'I' :: 'n' :: 'f' :: 'i' :: 'n' :: 'i' :: 't' :: 'y' :: r => some (.neginf, r)
    | '-' :: r => (parseNumTail true r).map (fun p => (.num p.1.1 p.1.2, p.2))
    | l2 => (parseNumTail false l2).map (fun p => (.num p.1.1 p.1.2, p.2))
  | fuel + 1, .arrTail, l =>
    (parseCore fuel .value l).bind (fun p =>
      match skipJsonWs p.2 with
      | ',' :: r2 =>
        (parseCore fuel .arrTail r2).bind (fun q =>
          match q.1 with
          | .arr es => some (.arr (p.1 :: es), q.2)
          | _ => none)
      | ']' :: r2 => some (.arr [p.1], r2)
      | _ => none)
  | fuel + 1, .objTail, l =>
    match skipJsonWs l with
    | '"' :: r =>
      (parseJString r).bind (fun kp =>
        match skipJsonWs kp.2 with
        | ':' :: r3 =>
          (parseCore fuel .value r3).bind (fun vp =>
            match skipJsonWs vp.2 with
            | ',' :: r5 =>
              (parseCore fuel .objTail r5).bind (fun q =>
                match q.1 with
                | .obj es => some (.obj ((String.mk kp.1, vp.1) :: es), q.2)
                | _ => none)
            | '\x7d' :: r5 => some (.obj [(String.mk kp.1, vp.1)], r5)
            | _ => none)
        | _ => none)
    | _ => none

/-- Python's `json.loads`: parse one value and require that only
whitespace remains ("Extra data" otherwise). -/
def jsonParse (s : String) : Option Json :=
  match parseCore (2 * s.data.length + 2) .value s.data with
  | some (j, rest) => if (skipJsonWs rest).isEmpty then some j else none
  | none => none

/-- `AVAILABLE_FIELDS` (lines 9–16 of `app.py`): the static field catalog,
identifier to description. -/
def AVAILABLE_FIELDS : List (String × String) :=
  [("company_name", "Name of the Company (e.g., \x27Company\x27, \x27Vendor\x27, \x27Organization\x27)"),
   ("invoice_number", "Invoice Number (e.g., \x27Invoice No.\x27, \x27Bill Number\x27, \x27Invoice ID\x27)"),
   ("total_amount", "Total Amount (e.g., \x27Total\x27, \x27Amount Due\x27, \x27Grand Total\x27)"),
   ("utr_number", "UTR Number (e.g., \x27UTR\x27, \x27Transaction ID\x27, \x27Reference Number\x27)"),
   ("claim_number", "Claim Number or Settlement Number (e.g., \x27Claim ID\x27, \x27Settlement ID\x27, \x27Case Number\x27)"),
   ("payment_credited_date", "Payment Credited Date (e.g., \x27Payment Date\x27, \x27Credit Date\x27, \x27Transaction Date\x27)")]

/-- Whether every selected field is a key of `AVAILABLE_FIELDS`.  Line 21
of `app.py` indexes `AVAILABLE_FIELDS[field]`, so an unknown field raises
`KeyError` inside the `try`, before the model is called. -/
def fieldsKnown (selected : List String) : Bool :=
  selected.all (fun f => (AVAILABLE_FIELDS.map Prod.fst).contains f)

/-- The outcome of the external model call for one document: either the
reply text, or an exception raised by the transport/API (upload failure,
authentication, quota, ...). -/
inductive ModelOutcome where
  | text (t : String) : ModelOutcome
  | exc (msg : String) : ModelOutcome

/-- What `extract_structured_data` does after the model call: return the
parsed value (line 48), return `None` via the `json.JSONDecodeError`
handler that reports the (cleaned) response text (lines 50–52), or return
`None` via the generic `except Exception` handler (lines 53–55). -/
inductive ExtractOutcome where
  | value (j : Json) : ExtractOutcome
  | jsonDecodeError (responseText : String) : ExtractOutcome
  | otherError (msg : String) : ExtractOutcome

/-- `extract_structured_data` (lines 18–55 of `app.py`), with the model
call abstracted as a `ModelOutcome`: build the prompt (which raises
`KeyError` on an unknown field), call the model, clean the reply, parse
it as JSON; both exception handlers return `None`. -/
def extract_structured_data (selected : List String) (o : ModelOutcome) : ExtractOutcome :=
  if fieldsKnown selected then
    match o with
    | .exc m => .otherError m
    | .text t =>
      let cleaned := cleanResponse t
      match jsonParse cleaned with
      | some j => .value j
      | none => .jsonDecodeError cleaned
  else .otherError "KeyError"

/-- The value `extract_structured_data` returns to its caller: the parsed
JSON on the success path, `None` from either handler. -/
def returnValue : ExtractOutcome → Option Json
  | .value j => some j
  | .jsonDecodeError _ => none
  | .otherError _ => none

/-- One row of the result table: the file name plus one cell per selected
field (a Python dict with `"File Name"` first, then the fields in
selection order). -/
structure Row where
  fileName : String
  cells : List (String × Json)
deriving Repr

/-- Lookup in a parsed JSON object with Python-dict semantics: the last
occurrence of a duplicated key wins. -/
def objGet (entries : List (String × Json)) (f : String) : Option Json :=
  (entries.reverse.find? (fun e => e.1 == f)).map Prod.snd

/-- `extracted_data.get(field, "Not Found")` (lines 143 / 210 of
`app.py`).  `get` exists only on dicts: on a truthy non-dict value the
attribute access raises `AttributeError`, which no handler catches. -/
def dictGet (j : Json) (f : String) : Except String Json :=
  match j with
  | .obj entries => .ok ((objGet entries f).getD (.str "Not Found"))
  | _ => .error "AttributeError"

/-- Build the result row for one file (lines 141–143 / 208–210): the file
name plus `extracted_data.get(field, "Not Found")` for each selected
field; propagates the `AttributeError` of a non-dict value. -/
def buildRow (name : String) (selected : List String) (j : Json) : Except String Row :=
  (selected.mapM (fun f => (dictGet j f).map (fun v => (f, v)))).map
    (fun cs => ⟨name, cs⟩)

/-- How the batch loop body disposes of one document (lines 137–147):
a new result row, a new failed name, or an uncaught exception that
aborts the run. -/
inductive StepRes where
  | addRow (r : Row) : StepRes
  | addFail : StepRes
  | crashed (msg : String) : StepRes

/-- One iteration of the batch loop (lines 137–147 / 204–214): run the
extraction, test `if extracted_data:` (Python truthiness), and either
build the row or record the failure. -/
def processDoc (selected : List String) (name : String) (o : ModelOutcome) : StepRes :=
  match returnValue (extract_structured_data selected o) with
  | some j =>
    if pyTruthy j then
      match buildRow name selected j with
      | .ok r => .addRow r
      | .error m => .crashed m
    else .addFail
  | none => .addFail

/-- The observable outcome of a batch or retry loop: the rows of the
local `results` list, the names appended to
`st.session_state.processed_files`, the names recorded as failures, the
names actually attempted (extraction invoked), and — when an uncaught
exception aborted the loop — its message.  On a crash the per-iteration
appends made before the crash are retained, the loop's remaining
documents are not attempted, and the local `results` are lost. -/
structure BatchOut where
  rows : List Row
  processed : List String
  failed : List String
  attempted : List String
  crash : Option String
deriving Repr

/-- The batch loop of `main` (lines 128–147 of `app.py`): process the
saved files in order, appending each name to exactly one of the result
rows/processed names or the failed names, until done or crashed. -/
def runBatch (selected : List String) : List (String × ModelOutcome) → BatchOut
  | [] => ⟨[], [], [], [], none⟩
  | (name, o) :: ds =>
    match processDoc selected name o with
    | .addRow r =>
      let rest := runBatch selected ds
      ⟨r :: rest.rows, name :: rest.processed, rest.failed, name :: rest.attempted, rest.crash⟩
    | .addFail =>
      let rest := runBatch selected ds
      ⟨rest.rows, rest.processed, name :: rest.failed, name :: rest.attempted, rest.crash⟩
    | .crashed m => ⟨[], [], [], [name], some m⟩

/-- The retry loop (lines 191–215 of `app.py`): for each failed name,
look for the first uploaded file with that name; if none matches, the
name is skipped — it joins neither the new rows nor `new_failures`.
Otherwise the document is re-extracted exactly as in the batch loop. -/
def runRetry (selected : List String) (uploaded : List (String × ModelOutcome)) :
    List String → BatchOut
  | [] => ⟨[], [], [], [], none⟩
  | name :: rest =>
    match uploaded.find? (fun u => u.1 == name) with
    | none => runRetry selected uploaded rest
    | some u =>
      match processDoc selected name u.2 with
      | .addRow r =>
        let r2 := runRetry selected uploaded rest
        ⟨r :: r2.rows, name :: r2.processed, r2.failed, name :: r2.attempted, r2.crash⟩
      | .addFail =>
        let r2 := runRetry selected uploaded rest
        ⟨r2.rows, r2.processed, name :: r2.failed, name :: r2.attempted, r2.crash⟩
      | .crashed m => ⟨[], [], [], [name], some m⟩

/-- The session state the app keeps across runs:
`st.session_state.processed_files` and `st.session_state.failed_files`. -/
structure SessionState where
  processed : List String
  failed : List String
deriving Repr

/-- Clicking "Extract Data" (lines 108–149): `failed_files` is reset to
`[]` and then receives the run's failure appends; `processed_files` is
NOT reset — the run's appends accumulate onto whatever was there. -/
def runBatchSession (s : SessionState) (selected : List String)
    (docs : List (String × ModelOutcome)) : SessionState :=
  let r := runBatch selected docs
  ⟨s.processed ++ r.processed, r.failed⟩

/-- Clicking "Reprocess Failed Files" (lines 182–218): the retry runs
over the current `failed_files`; `processed_files` receives the appends;
`failed_files = new_failures` (line 218) executes only when the loop
finishes without an uncaught exception. -/
def runRetrySession (s : SessionState) (selected : List String)
    (uploaded : List (String × ModelOutcome)) : SessionState :=
  let r := runRetry selected uploaded s.failed
  ⟨s.processed ++ r.processed,
   match r.crash with
   | none => r.failed
   | some _ => s.failed⟩

/-! ## CSV export (line 161 of `app.py`)

`df.to_csv(index=False)` writes the header row then one line per result
row, with the Python `csv` module's QUOTE_MINIMAL discipline: a cell is
double-quoted exactly when it contains a comma, a double quote, or a line
terminator character, and embedded double quotes are doubled.  Rows are
terminated with `\n`.  The parser below implements the standard CSV
reading rules, for the round-trip property. -/

/-- Characters that force quoting under QUOTE_MINIMAL. -/
def csvSpecial (c : Char) : Bool :=
  c == ',' || c == '"' || c == '\n' || c == '\r'

/-- Double every double quote in a cell. -/
def csvEscape (l : List Char) : List Char :=
  l.foldr (fun c acc => if c = '"' then '"' :: '"' :: acc else c :: acc) []

/-- Encode one cell: quote it iff it contains a special character. -/
def encodeCell (l : List Char) : List Char :=
  if l.any csvSpecial then '"' :: (csvEscape l ++ ['"']) else l

/-- Encode one record: cells joined with commas. -/
def encodeRecord : List (List Char) → List Char
  | [] => []
  | [c] => encodeCell c
  | c :: cs => encodeCell c ++ ',' :: encodeRecord cs

/-- Encode a table: each record followed by a newline. -/
def encodeTable (t : List (List (List Char))) : List Char :=
  t.foldr (fun r acc => encodeRecord r ++ '\n' :: acc) []

/-- Read the body of a quoted cell (after its opening quote): a doubled
quote is a literal quote, a single quote closes the cell. -/
def parseQuotedBody : List Char → Option (List Char × List Char)
  | [] => none
  | c :: rest =>
    if c = '"' then
      match rest with
      | '"' :: rest2 => (parseQuotedBody rest2).map (fun p => ('"' :: p.1, p.2))
      | _ => some ([], rest)
    else (parseQuotedBody rest).map (fun p => (c :: p.1, p.2))

/-- Read an unquoted cell: everything up to the next comma or newline. -/
def parseBareCell : List Char → List Char × List Char
  | [] => ([], [])
  | c :: rest =>
    if c = ',' ∨ c = '\n' then ([], c :: rest)
    else
      let p := parseBareCell rest
      (c :: p.1, p.2)

/-- Read one cell, quoted or bare. -/
def parseCell (l : List Char) : Option (List Char × List Char) :=
  match l with
  | '"' :: rest => parseQuotedBody rest
  | l2 => some (parseBareCell l2)

/-- Read one record: cells separated by commas, ended by a newline or the
end of input. -/
def parseRecord : Nat → List Char → Option (List (List Char) × List Char)
  | 0, _ => none
  | fuel + 1, l =>
    match parseCell l with
    | none => none
    | some (f, r) =>
      match r with
      | ',' :: r2 => (parseRecord fuel r2).map (fun p => (f :: p.1, p.2))
      | '\n' :: r2 => some ([f], r2)
      | [] => some ([f], [])
      | _ => none

/-- Read a whole CSV table. -/
def parseTable : Nat → List Char → Option (List (List (List Char)))
  | 0, _ => none
  | _ + 1, [] => some []
  | fuel + 1, l =>
    (parseRecord (fuel + 1) l).bind (fun p =>
      (parseTable fuel p.2).map (fun rs => p.1 :: rs))

/-- Serialize a table of string cells the way `df.to_csv(index=False)`
does. -/
def toCSV (t : List (List String)) : String :=
  String.mk (encodeTable (t.map (fun r => r.map String.data)))

/-- Parse a CSV file with the standard reading rules. -/
def parseCSV (s : String) : Option (List (List String)) :=
  (parseTable (s.data.length + 1) s.data).map
    (fun t => t.map (fun r => r.map String.mk))

/-! ## General lemmas about the batch and retry loops -/

theorem buildRow_fileName (name : String) (selected : List String) (j : Json)
    (r : Row) (h : buildRow name selected j = .ok r) : r.fileName = name := by
  unfold buildRow at h
  cases hm : selected.mapM (fun f => (dictGet j f).map (fun v => (f, v))) with
  | ok cs => rw [hm] at h; simp [Except.map] at h; simp [← h]
  | error m => rw [hm] at h; simp [Except.map] at h

theorem processDoc_addRow_fileName (selected : List String) (name : String)
    (o : ModelOutcome) (r : Row) (h : processDoc selected name o = .addRow r) :
    r.fileName = name := by
  unfold processDoc at h
  split at h
  next j hv =>
    split at h
    next ht =>
      split at h
      next r2 hb =>
        injection h with h'
        exact h' ▸ buildRow_fileName name selected j r2 hb
      next m hb => exact absurd h (by simp)
    next ht => exact absurd h (by simp)
  next hv => exact absurd h (by simp)

theorem processDoc_exc (selected : List String) (name msg : String) :
    processDoc selected name (.exc msg) = .addFail := by
  unfold processDoc extract_structured_data
  by_cases hf : fieldsKnown selected
  · simp [hf, returnValue]
  · simp [hf, returnValue]

/-- Every name recorded anywhere by the batch loop came from the input
list, and `processed` always lists exactly the row file names. -/
theorem runBatch_processed_eq (selected : List String)
    (docs : List (String × ModelOutcome)) :
    (runBatch selected docs).processed = (runBatch selected docs).rows.map Row.fileName := by
  induction docs with
  | nil => rfl
  | cons d ds ih =>
    obtain ⟨n, o⟩ := d
    cases hp : processDoc selected n o with
    | addRow r =>
      simp [runBatch, hp, ih, processDoc_addRow_fileName selected n o r hp]
    | addFail => simp [runBatch, hp, ih]
    | crashed m => simp [runBatch, hp]

/-- On a crash-free run, the attempted names are exactly the input names,
in order. -/
theorem runBatch_attempted_eq (selected : List String)
    (docs : List (String × ModelOutcome))
    (h : (runBatch selected docs).crash = none) :
    (runBatch selected docs).attempted = docs.map Prod.fst := by
  induction docs with
  | nil => rfl
  | cons d ds ih =>
    obtain ⟨n, o⟩ := d
    cases hp : processDoc selected n o with
    | addRow r =>
      simp only [runBatch, hp] at h ⊢
      simp [ih h]
    | addFail =>
      simp only [runBatch, hp] at h ⊢
      simp [ih h]
    | crashed m => simp [runBatch, hp] at h

/-- On a crash-free run, the row names together with the failed names are
a permutation of the input names. -/
theorem runBatch_perm (selected : List String)
    (docs : List (String × ModelOutcome))
    (h : (runBatch selected docs).crash = none) :
    ((runBatch selected docs).rows.map Row.fileName ++ (runBatch selected docs).failed).Perm
      (docs.map Prod.fst) := by
  induction docs with
  | nil => simp [runBatch]
  | cons d ds ih =>
    obtain ⟨n, o⟩ := d
    cases hp : processDoc selected n o with
    | addRow r =>
      simp only [runBatch, hp] at h ⊢
      simpa [processDoc_addRow_fileName selected n o r hp] using (ih h).cons n
    | addFail =>
      simp only [runBatch, hp] at h ⊢
      exact List.perm_middle.trans ((ih h).cons n)
    | crashed m => simp [runBatch, hp] at h

/-- Crash-free append decomposition of the batch loop: a crash-free head
segment contributes its rows, processed names, failures and attempts
segment-wise, and the remainder of the run is the run of the tail. -/
theorem runBatch_append (selected : List String)
    (xs ys : List (String × ModelOutcome))
    (h : (runBatch selected xs).crash = none) :
    runBatch selected (xs ++ ys) =
      ⟨(runBatch selected xs).rows ++ (runBatch selected ys).rows,
       (runBatch selected xs).processed ++ (runBatch selected ys).processed,
       (runBatch selected xs).failed ++ (runBatch selected ys).failed,
       (runBatch selected xs).attempted ++ (runBatch selected ys).attempted,
       (runBatch selected ys).crash⟩ := by
  induction xs with
  | nil => simp [runBatch]
  | cons d ds ih =>
    obtain ⟨n, o⟩ := d
    cases hp : processDoc selected n o with
    | addRow r =>
      simp only [runBatch, hp, List.cons_append] at h ⊢
      simp [ih h]
    | addFail =>
      simp only [runBatch, hp, List.cons_append] at h ⊢
      simp [ih h]
    | crashed m => simp [runBatch, hp] at h

/-- Every name the retry loop attempts is in the input failure list. -/
theorem runRetry_attempted_subset (selected : List String)
    (uploaded : List (String × ModelOutcome)) (names : List String) :
    ∀ n ∈ (runRetry selected uploaded names).attempted, n ∈ names := by
  induction names with
  | nil => simp [runRetry]
  | cons name rest ih =>
    intro n hn
    cases hf : uploaded.find? (fun u => u.1 == name) with
    | none =>
      simp only [runRetry, hf] at hn
      exact List.mem_cons_of_mem _ (ih n hn)
    | some u =>
      cases hp : processDoc selected name u.2 with
      | addRow r =>
        simp only [runRetry, hf, hp] at hn
        rcases List.mem_cons.mp hn with h1 | h2
        · exact h1 ▸ List.mem_cons_self _ _
        · exact List.mem_cons_of_mem _ (ih n h2)
      | addFail =>
        simp only [runRetry, hf, hp] at hn
        rcases List.mem_cons.mp hn with h1 | h2
        · exact h1 ▸ List.mem_cons_self _ _
        · exact List.mem_cons_of_mem _ (ih n h2)
      | crashed m =>
        simp only [runRetry, hf, hp, List.mem_singleton] at hn
        exact hn ▸ List.mem_cons_self _ _

/-- Every name the retry loop records as still failed is in the input
failure list. -/
theorem runRetry_failed_subset (selected : List String)
    (uploaded : List (String × ModelOutcome)) (names : List String) :
    ∀ n ∈ (runRetry selected uploaded names).failed, n ∈ names := by
  induction names with
  | nil => simp [runRetry]
  | cons name rest ih =>
    intro n hn
    cases hf : uploaded.find? (fun u => u.1 == name) with
    | none =>
      simp only [runRetry, hf] at hn
      exact List.mem_cons_of_mem _ (ih n hn)
    | some u =>
      cases hp : processDoc selected name u.2 with
      | addRow r =>
        simp only [runRetry, hf, hp] at hn
        exact List.mem_cons_of_mem _ (ih n hn)
      | addFail =>
        simp only [runRetry, hf, hp] at hn
        rcases List.mem_cons.mp hn with h1 | h2
        · exact h1 ▸ List.mem_cons_self _ _
        · exact List.mem_cons_of_mem _ (ih n h2)
      | crashed m => simp only [runRetry, hf, hp] at hn; exact absurd hn (by simp)

/-- The document the retry loop resolves a failed name to: the first
uploaded file with that name. -/
def lookupUploaded (uploaded : List (String × ModelOutcome)) (n : String) :
    Option ModelOutcome :=
  (uploaded.find? (fun u => u.1 == n)).map Prod.snd

/-- On a crash-free retry, no resolvable name's extraction crashed. -/
theorem runRetry_no_crash (selected : List String)
    (uploaded : List (String × ModelOutcome)) (names : List String)
    (h : (runRetry selected uploaded names).crash = none) :
    ∀ n ∈ names, ∀ o, lookupUploaded uploaded n = some o →
      ∀ m, processDoc selected n o ≠ .crashed m := by
  induction names with
  | nil => simp
  | cons name rest ih =>
    intro n hn o ho m
    cases hf : uploaded.find? (fun u => u.1 == name) with
    | none =>
      simp only [runRetry, hf] at h
      rcases List.mem_cons.mp hn with h1 | h2
      · subst h1; rw [lookupUploaded, hf] at ho; simp at ho
      · exact ih h n h2 o ho m
    | some u =>
      cases hp : processDoc selected name u.2 with
      | addRow r =>
        simp only [runRetry, hf, hp] at h
        rcases List.mem_cons.mp hn with h1 | h2
        · subst h1
          rw [lookupUploaded, hf] at ho
          simp at ho
          rw [← ho, hp]
          simp
        · exact ih h n h2 o ho m
      | addFail =>
        simp only [runRetry, hf, hp] at h
        rcases List.mem_cons.mp hn with h1 | h2
        · subst h1
          rw [lookupUploaded, hf] at ho
          simp at ho
          rw [← ho, hp]
          simp
        · exact ih h n h2 o ho m
      | crashed m2 => simp [runRetry, hf, hp] at h

/-- Membership in the processed names of a crash-free retry: exactly the
input names that resolve to a document whose extraction succeeded. -/
theorem runRetry_mem_processed (selected : List String)
    (uploaded : List (String × ModelOutcome)) (names : List String)
    (h : (runRetry selected uploaded names).crash = none) (n : String) :
    n ∈ (runRetry selected uploaded names).processed ↔
      (n ∈ names ∧ ∃ o, lookupUploaded uploaded n = some o ∧
        ∃ row, processDoc selected n o = .addRow row) := by
  induction names with
  | nil => simp [runRetry]
  | cons name rest ih =>
    cases hf : uploaded.find? (fun u => u.1 == name) with
    | none =>
      simp only [runRetry, hf] at h ⊢
      rw [ih h]
      constructor
      · rintro ⟨h2, hrest⟩; exact ⟨List.mem_cons_of_mem _ h2, hrest⟩
      · rintro ⟨h1, o, ho, hrow⟩
        rcases List.mem_cons.mp h1 with h2 | h2
        · subst h2; rw [lookupUploaded, hf] at ho; simp at ho
        · exact ⟨h2, o, ho, hrow⟩
    | some u =>
      cases hp : processDoc selected name u.2 with
      | addRow r =>
        simp only [runRetry, hf, hp, List.mem_cons] at h ⊢
        rw [ih h]
        constructor
        · rintro (h1 | ⟨h2, hrest⟩)
          · subst h1
            exact ⟨Or.inl rfl, u.2, by rw [lookupUploaded, hf]; rfl, r, hp⟩
          · exact ⟨Or.inr h2, hrest⟩
        · rintro ⟨h1 | h1, o, ho, hrow⟩
          · exact Or.inl h1
          · exact Or.inr ⟨h1, o, ho, hrow⟩
      | addFail =>
        simp only [runRetry, hf, hp] at h ⊢
        rw [ih h]
        constructor
        · rintro ⟨h2, hrest⟩; exact ⟨List.mem_cons_of_mem _ h2, hrest⟩
        · rintro ⟨h1, o, ho, row, hrow⟩
          rcases List.mem_cons.mp h1 with h2 | h2
          · subst h2
            rw [lookupUploaded, hf] at ho
            simp at ho
            rw [← ho, hp] at hrow
            exact absurd hrow (by simp)
          · exact ⟨h2, o, ho, row, hrow⟩
      | crashed m => simp [runRetry, hf, hp] at h

/-- Membership in the still-failed names of a crash-free retry: exactly
the input names that resolve to a document whose extraction failed
again. -/
theorem runRetry_mem_failed (selected : List String)
    (uploaded : List (String × ModelOutcome)) (names : List String)
    (h : (runRetry selected uploaded names).crash = none) (n : String) :
    n ∈ (runRetry selected uploaded names).failed ↔
      (n ∈ names ∧ ∃ o, lookupUploaded uploaded n = some o ∧
        processDoc selected n o = .addFail) := by
  induction names with
  | nil => simp [runRetry]
  | cons name rest ih =>
    cases hf : uploaded.find? (fun u => u.1 == name) with
    | none =>
      simp only [runRetry, hf] at h ⊢
      rw [ih h]
      constructor
      · rintro ⟨h2, hrest⟩; exact ⟨List.mem_cons_of_mem _ h2, hrest⟩
      · rintro ⟨h1, o, ho, hfail⟩
        rcases List.mem_cons.mp h1 with h2 | h2
        · subst h2; rw [lookupUploaded, hf] at ho; simp at ho
        · exact ⟨h2, o, ho, hfail⟩
    | some u =>
      cases hp : processDoc selected name u.2 with
      | addRow r =>
        simp only [runRetry, hf, hp] at h ⊢
        rw [ih h]
        constructor
        · rintro ⟨h2, hrest⟩; exact ⟨List.mem_cons_of_mem _ h2, hrest⟩
        · rintro ⟨h1, o, ho, hfail⟩
          rcases List.mem_cons.mp h1 with h2 | h2
          · subst h2
            rw [lookupUploaded, hf] at ho
            simp at ho
            rw [← ho, hp] at hfail
            exact absurd hfail (by simp)
          · exact ⟨h2, o, ho, hfail⟩
      | addFail =>
        simp only [runRetry, hf, hp, List.mem_cons] at h ⊢
        rw [ih h]
        constructor
        · rintro (h1 | ⟨h2, hrest⟩)
          · subst h1
            exact ⟨Or.inl rfl, u.2, by rw [lookupUploaded, hf]; rfl, hp⟩
          · exact ⟨Or.inr h2, hrest⟩
        · rintro ⟨h1 | h1, o, ho, hfail⟩
          · exact Or.inl h1
          · exact Or.inr ⟨h1, o, ho, hfail⟩
      | crashed m => simp [runRetry, hf, hp] at h

/-! ## Lemmas for the CSV round trip -/

theorem parseQuotedBody_escape (c : List Char) (rest : List Char)
    (h : ∀ t, rest ≠ '"' :: t) :
    parseQuotedBody (csvEscape c ++ '"' :: rest) = some (c, rest) := by
  induction c with
  | nil =>
    show parseQuotedBody ('"' :: rest) = some ([], rest)
    unfold parseQuotedBody
    rw [if_pos rfl]
    cases rest with
    | nil => rfl
    | cons x t =>
      have hx : x ≠ '"' := fun he => h t (by rw [he])
      split
      next rest2 heq => injection heq with h1 _; exact absurd h1 hx
      next => rfl
  | cons a c' ih =>
    by_cases ha : a = '"'
    · subst ha
      have hesc : csvEscape ('"' :: c') = '"' :: '"' :: csvEscape c' := by
        simp [csvEscape]
      rw [hesc, List.cons_append, List.cons_append]
      unfold parseQuotedBody
      rw [if_pos rfl]
      simp only [ih]
      rfl
    · have hesc : csvEscape (a :: c') = a :: csvEscape c' := by
        simp [csvEscape, ha]
      rw [hesc, List.cons_append]
      unfold parseQuotedBody
      rw [if_neg ha, ih]
      rfl

theorem parseBareCell_clean (c : List Char) (rest : List Char)
    (hc : c.all (fun x => !csvSpecial x))
    (hr : rest = [] ∨ (∃ t, rest = ',' :: t) ∨ (∃ t, rest = '\n' :: t)) :
    parseBareCell (c ++ rest) = (c, rest) := by
  induction c with
  | nil =>
    rcases hr with h0 | ⟨t, ht⟩ | ⟨t, ht⟩
    · simp [h0, parseBareCell]
    · subst ht; simp [parseBareCell]
    · subst ht; simp [parseBareCell]
  | cons a c' ih =>
    simp only [List.all_cons, Bool.and_eq_true] at hc
    have ha : ¬(a = ',' ∨ a = '\n') := by
      rintro (h1 | h1) <;> subst h1 <;> simp [csvSpecial] at hc
    show parseBareCell (a :: (c' ++ rest)) = _
    unfold parseBareCell
    rw [if_neg ha, ih hc.2]

theorem parseCell_encode (c : List Char) (rest : List Char)
    (hr : rest = [] ∨ (∃ t, rest = ',' :: t) ∨ (∃ t, rest = '\n' :: t)) :
    parseCell (encodeCell c ++ rest) = some (c, rest) := by
  by_cases hq : c.any csvSpecial
  · have hnq : ∀ t, rest ≠ '"' :: t := by
      rcases hr with h0 | ⟨t, ht⟩ | ⟨t, ht⟩ <;> subst_vars <;> intro t2 he <;> simp at he
    rw [encodeCell, if_pos hq]
    show parseCell ('"' :: (csvEscape c ++ ['"'] ++ rest)) = _
    have : csvEscape c ++ ['"'] ++ rest = csvEscape c ++ '"' :: rest := by simp
    rw [this]
    exact parseQuotedBody_escape c rest hnq
  · rw [encodeCell, if_neg hq]
    have hc : c.all (fun x => !csvSpecial x) := by
      rw [List.all_eq_not_any_not]
      simpa using hq
    have hbare := parseBareCell_clean c rest hc hr
    cases c with
    | nil =>
      rcases hr with h0 | ⟨t, ht⟩ | ⟨t, ht⟩ <;> subst_vars <;>
        simp only [List.nil_append] at hbare ⊢ <;> simp [parseCell, hbare]
    | cons a c' =>
      have ha : a ≠ '"' := by
        intro he
        rw [he] at hq
        exact hq (by simp [csvSpecial])
      show parseCell (a :: (c' ++ rest)) = _
      unfold parseCell
      split
      next heq => injection heq with h1 _; exact absurd h1 ha
      next => rw [show a :: (c' ++ rest) = (a :: c') ++ rest from rfl, hbare]

theorem encodeRecord_length (cells : List (List Char)) :
    cells.length ≤ (encodeRecord cells).length + 1 := by
  induction cells with
  | nil => simp [encodeRecord]
  | cons c cs ih =>
    cases cs with
    | nil => simp [encodeRecord]
    | cons c2 cs2 =>
      show (c :: c2 :: cs2).length ≤ (encodeCell c ++ ',' :: encodeRecord (c2 :: cs2)).length + 1
      simp only [List.length_cons, List.length_append] at ih ⊢
      omega

theorem parseRecord_encode (cells : List (List Char)) (rest : List Char)
    (fuel : Nat) (hfuel : cells.length ≤ fuel) (hne : cells ≠ []) :
    parseRecord fuel (encodeRecord cells ++ '\n' :: rest) = some (cells, rest) := by
  induction cells generalizing fuel rest with
  | nil => exact absurd rfl hne
  | cons c cs ih =>
    obtain ⟨f, rfl⟩ : ∃ f, fuel = f + 1 := by
      cases fuel with
      | zero => simp at hfuel
      | succ f => exact ⟨f, rfl⟩
    cases cs with
    | nil =>
      show parseRecord (f + 1) (encodeCell c ++ '\n' :: rest) = _
      unfold parseRecord
      rw [parseCell_encode c ('\n' :: rest) (Or.inr (Or.inr ⟨rest, rfl⟩))]
      simp
    | cons c2 cs2 =>
      show parseRecord (f + 1)
          ((encodeCell c ++ ',' :: encodeRecord (c2 :: cs2)) ++ '\n' :: rest) = _
      have hassoc : (encodeCell c ++ ',' :: encodeRecord (c2 :: cs2)) ++ '\n' :: rest =
          encodeCell c ++ ',' :: (encodeRecord (c2 :: cs2) ++ '\n' :: rest) := by simp
      rw [hassoc]
      unfold parseRecord
      rw [parseCell_encode c (',' :: (encodeRecord (c2 :: cs2) ++ '\n' :: rest))
        (Or.inr (Or.inl ⟨_, rfl⟩))]
      have hfuel2 : (c2 :: cs2).length ≤ f := by
        simp only [List.length_cons] at hfuel ⊢; omega
      simp [ih rest f hfuel2 (by simp)]

theorem parseTable_cons_eq (fuel : Nat) (l : List Char) (hl : l ≠ []) :
    parseTable (fuel + 1) l =
      (parseRecord (fuel + 1) l).bind (fun p =>
        (parseTable fuel p.2).map (fun rs => p.1 :: rs)) := by
  cases l with
  | nil => exact absurd rfl hl
  | cons a t => rfl

theorem parseTable_encode (t : List (List (List Char)))
    (h : ∀ r ∈ t, r ≠ []) :
    ∀ fuel, (encodeTable t).length < fuel →
      parseTable fuel (encodeTable t) = some t := by
  induction t with
  | nil =>
    intro fuel hfuel
    cases fuel with
    | zero => simp at hfuel
    | succ f => rfl
  | cons r rs ih =>
    intro fuel hfuel
    obtain ⟨f, rfl⟩ : ∃ f, fuel = f + 1 := by
      cases fuel with
      | zero => simp at hfuel
      | succ f => exact ⟨f, rfl⟩
    have hfe : encodeTable (r :: rs) = encodeRecord r ++ '\n' :: encodeTable rs := rfl
    rw [hfe] at hfuel ⊢
    simp only [List.length_append, List.length_cons] at hfuel
    rw [parseTable_cons_eq f _ (by simp)]
    rw [parseRecord_encode r (encodeTable rs) (f + 1)
      (by have := encodeRecord_length r; omega)
      (h r (List.mem_cons_self r rs))]
    have hrs : parseTable f (encodeTable rs) = some rs := by
      apply ih (fun x hx => h x (List.mem_cons_of_mem r hx)) f
      omega
    simp [hrs]

/-! ## Lemmas about result rows -/

/-- The value a result row holds for a field (first matching cell; the
selection is duplicate-free in the app, and duplicated fields would carry
equal values anyway). -/
def rowValue (r : Row) (f : String) : Option Json :=
  (r.cells.find? (fun c => c.1 == f)).map Prod.snd

/-- On a parsed JSON object, `buildRow` never raises and fills every
selected field from the object, defaulting to the `"Not Found"`
sentinel. -/
theorem buildRow_obj (name : String) (selected : List String)
    (entries : List (String × Json)) :
    buildRow name selected (.obj entries) =
      .ok ⟨name, selected.map
        (fun g => (g, (objGet entries g).getD (.str "Not Found")))⟩ := by
  unfold buildRow
  have hm : selected.mapM (fun f => (dictGet (.obj entries) f).map (fun v => (f, v))) =
      .ok (selected.map (fun g => (g, (objGet entries g).getD (.str "Not Found")))) := by
    induction selected with
    | nil => rfl
    | cons g gs ih =>
      rw [List.mapM_cons, ih]
      rfl
  rw [hm]
  rfl

/-- Looking a selected field up in a row whose cells were built by
mapping over the selection yields the mapped value. -/
theorem rowValue_map (name : String) (selected : List String)
    (w : String → Json) (f : String) (hf : f ∈ selected) :
    rowValue ⟨name, selected.map (fun g => (g, w g))⟩ f = some (w f) := by
  induction selected with
  | nil => simp at hf
  | cons g gs ih =>
    unfold rowValue
    by_cases hg : g = f
    · subst hg
      simp [List.find?_cons]
    · have hf2 : f ∈ gs := by
        rcases List.mem_cons.mp hf with h1 | h1
        · exact absurd h1.symm hg
        · exact h1
      have := ih hf2
      unfold rowValue at this
      simpa [List.find?_cons, hg] using this

/-- A crash-free run of a concatenation has a crash-free head segment. -/
theorem runBatch_crash_of_append (selected : List String)
    (xs ys : List (String × ModelOutcome))
    (h : (runBatch selected (xs ++ ys)).crash = none) :
    (runBatch selected xs).crash = none := by
  induction xs with
  | nil => rfl
  | cons d ds ih =>
    obtain ⟨n, o⟩ := d
    cases hp : processDoc selected n o with
    | addRow r => simp only [List.cons_append, runBatch, hp] at h ⊢; exact ih h
    | addFail => simp only [List.cons_append, runBatch, hp] at h ⊢; exact ih h
    | crashed m => simp [List.cons_append, runBatch, hp] at h

/-- When the selection is valid and the cleaned reply does not parse,
`extract_structured_data` takes the `json.JSONDecodeError` handler,
reporting the cleaned response text. -/
theorem extract_text_parse_none (selected : List String) (t : String)
    (hknown : fieldsKnown selected = true)
    (hparse : jsonParse (cleanResponse t) = none) :
    extract_structured_data selected (.text t) = .jsonDecodeError (cleanResponse t) := by
  unfold extract_structured_data
  rw [if_pos hknown]
  simp [hparse]

/-- When the selection is valid and the cleaned reply parses, the
extraction returns the parsed value. -/
theorem extract_text_parse_some (selected : List String) (t : String) (j : Json)
    (hknown : fieldsKnown selected = true)
    (hparse : jsonParse (cleanResponse t) = some j) :
    extract_structured_data selected (.text t) = .value j := by
  unfold extract_structured_data
  rw [if_pos hknown]
  simp [hparse]

/-- An unparseable reply makes the loop body record a failure. -/
theorem processDoc_parse_none (selected : List String) (name t : String)
    (hknown : fieldsKnown selected = true)
    (hparse : jsonParse (cleanResponse t) = none) :
    processDoc selected name (.text t) = .addFail := by
  unfold processDoc
  rw [extract_text_parse_none selected t hknown hparse]
  rfl

/-- A parsed-but-falsy reply makes the loop body record a failure. -/
theorem processDoc_falsy (selected : List String) (name t : String) (j : Json)
    (hknown : fieldsKnown selected = true)
    (hparse : jsonParse (cleanResponse t) = some j)
    (hfalsy : pyTruthy j = false) :
    processDoc selected name (.text t) = .addFail := by
  unfold processDoc
  rw [extract_text_parse_some selected t j hknown hparse]
  show (if pyTruthy j = true then _ else StepRes.addFail) = StepRes.addFail
  rw [hfalsy]
  simp

/-! ## The claims -/

/-- C1 (counterexample): the claim fails as stated.  A single-document
batch whose reply parses to the truthy non-dict value `[1]` makes line
143's `extracted_data.get` raise an uncaught `AttributeError`: the run
aborts, yields no outputs, and `len(rows) + len(failed_names)` is `0`,
not `len(documents) = 1`. -/
theorem batch_length_cex :
    (runBatch ["company_name"] [("a.pdf", .text "[1]")]).rows.length +
        (runBatch ["company_name"] [("a.pdf", .text "[1]")]).failed.length ≠ 1 ∧
    (runBatch ["company_name"] [("a.pdf", .text "[1]")]).crash = some "AttributeError" := by
  decide

/-- C1 (amended): provided the run completes without an uncaught
`AttributeError` (every truthy parsed reply is a JSON object), a batch
over a non-empty document list with a non-empty field selection yields
`rows.length + failed.length = docs.length`; when additionally the
document names are distinct, every document name appears in exactly one
of the row names and the failure list. -/
theorem batch_partition (selected : List String)
    (docs : List (String × ModelOutcome))
    (hdocs : docs ≠ []) (hsel : selected ≠ [])
    (hcrash : (runBatch selected docs).crash = none) :
    (runBatch selected docs).rows.length + (runBatch selected docs).failed.length =
      docs.length ∧
    ((docs.map Prod.fst).Nodup → ∀ n ∈ docs.map Prod.fst,
      (n ∈ (runBatch selected docs).rows.map Row.fileName ∧
        n ∉ (runBatch selected docs).failed) ∨
      (n ∉ (runBatch selected docs).rows.map Row.fileName ∧
        n ∈ (runBatch selected docs).failed)) := by
  have hperm := runBatch_perm selected docs hcrash
  constructor
  · have := hperm.length_eq
    simpa using this
  · intro hnd n hn
    have hmem : n ∈ (runBatch selected docs).rows.map Row.fileName ++
        (runBatch selected docs).failed := hperm.symm.subset hn
    have hnd2 : ((runBatch selected docs).rows.map Row.fileName ++
        (runBatch selected docs).failed).Nodup := hperm.symm.nodup hnd
    rw [List.nodup_append] at hnd2
    rcases List.mem_append.mp hmem with h1 | h1
    · exact Or.inl ⟨h1, fun h2 => hnd2.2.2 h1 h2⟩
    · exact Or.inr ⟨fun h2 => hnd2.2.2 h2 h1, h1⟩

/-- C1 (witness): a two-document batch, one parseable-object reply and
one unparseable reply. -/
theorem batch_partition_witness :
    ([("a.pdf", ModelOutcome.text "\x7b\"company_name\": \"Acme\"\x7d"),
      ("b.pdf", ModelOutcome.text "oops")] ≠
        ([] : List (String × ModelOutcome)) ∧
     (["company_name"] : List String) ≠ [] ∧
     (runBatch ["company_name"]
       [("a.pdf", .text "\x7b\"company_name\": \"Acme\"\x7d"),
        ("b.pdf", .text "oops")]).crash = none) ∧
    ((runBatch ["company_name"]
        [("a.pdf", .text "\x7b\"company_name\": \"Acme\"\x7d"),
         ("b.pdf", .text "oops")]).rows.length +
      (runBatch ["company_name"]
        [("a.pdf", .text "\x7b\"company_name\": \"Acme\"\x7d"),
         ("b.pdf", .text "oops")]).failed.length = 2 ∧
     (([("a.pdf", ModelOutcome.text "\x7b\"company_name\": \"Acme\"\x7d"),
        ("b.pdf", ModelOutcome.text "oops")].map Prod.fst).Nodup →
       ∀ n ∈ [("a.pdf", ModelOutcome.text "\x7b\"company_name\": \"Acme\"\x7d"),
              ("b.pdf", ModelOutcome.text "oops")].map Prod.fst,
        (n ∈ (runBatch ["company_name"]
            [("a.pdf", .text "\x7b\"company_name\": \"Acme\"\x7d"),
             ("b.pdf", .text "oops")]).rows.map Row.fileName ∧
          n ∉ (runBatch ["company_name"]
            [("a.pdf", .text "\x7b\"company_name\": \"Acme\"\x7d"),
             ("b.pdf", .text "oops")]).failed) ∨
        (n ∉ (runBatch ["company_name"]
            [("a.pdf", .text "\x7b\"company_name\": \"Acme\"\x7d"),
             ("b.pdf", .text "oops")]).rows.map Row.fileName ∧
          n ∈ (runBatch ["company_name"]
            [("a.pdf", .text "\x7b\"company_name\": \"Acme\"\x7d"),
             ("b.pdf", .text "oops")]).failed))) :=
  ⟨⟨by simp, by simp, by decide⟩,
   batch_partition ["company_name"]
     [("a.pdf", .text "\x7b\"company_name\": \"Acme\"\x7d"),
      ("b.pdf", .text "oops")]
     (by simp) (by simp) (by decide)⟩

/-- C2 (counterexample): the claim fails as stated.  Here `b.pdf`'s
transport error is caught, but a later document (`c.pdf`) returns the
truthy non-dict reply `[1]`, whose row construction raises an uncaught
`AttributeError`: the remaining document `d.pdf` is never attempted and
no successful rows are produced. -/
theorem batch_isolation_cex :
    "d.pdf" ∉ (runBatch ["company_name"]
      [("b.pdf", .exc "boom"), ("c.pdf", .text "[1]"),
       ("d.pdf", .text "\x7b\"company_name\": \"X\"\x7d")]).attempted ∧
    (runBatch ["company_name"]
      [("b.pdf", .exc "boom"), ("c.pdf", .text "[1]"),
       ("d.pdf", .text "\x7b\"company_name\": \"X\"\x7d")]).rows.length = 0 ∧
    (runBatch ["company_name"]
      [("b.pdf", .exc "boom"), ("c.pdf", .text "[1]"),
       ("d.pdf", .text "\x7b\"company_name\": \"X\"\x7d")]).crash =
        some "AttributeError" := by
  decide

/-- C2 (amended): provided the rest of the batch completes without an
uncaught `AttributeError`, an exception raised by the model call for one
document is caught, contributes exactly that document's name to the
failure list, and every other document is still attempted with its rows
and failures unchanged. -/
theorem batch_error_isolated (selected : List String)
    (pre post : List (String × ModelOutcome)) (name msg : String)
    (hpre : (runBatch selected pre).crash = none)
    (hpost : (runBatch selected post).crash = none) :
    runBatch selected (pre ++ (name, .exc msg) :: post) =
      ⟨(runBatch selected pre).rows ++ (runBatch selected post).rows,
       (runBatch selected pre).processed ++ (runBatch selected post).processed,
       (runBatch selected pre).failed ++ name :: (runBatch selected post).failed,
       (runBatch selected pre).attempted ++ name :: (runBatch selected post).attempted,
       none⟩ := by
  have hmid : runBatch selected ((name, .exc msg) :: post) =
      ⟨(runBatch selected post).rows, (runBatch selected post).processed,
       name :: (runBatch selected post).failed,
       name :: (runBatch selected post).attempted,
       (runBatch selected post).crash⟩ := by
    simp [runBatch, processDoc_exc]
  rw [runBatch_append selected pre _ hpre, hmid, hpost]

/-- C2 (witness): one successful document before, the failing document,
one successful document after. -/
theorem batch_error_isolated_witness :
    ((runBatch ["company_name"]
        [("a.pdf", .text "\x7b\"company_name\": \"Acme\"\x7d")]).crash = none ∧
     (runBatch ["company_name"]
        [("d.pdf", .text "\x7b\"company_name\": \"X\"\x7d")]).crash = none) ∧
    runBatch ["company_name"]
        ([("a.pdf", .text "\x7b\"company_name\": \"Acme\"\x7d")] ++
          ("b.pdf", .exc "boom") ::
            [("d.pdf", .text "\x7b\"company_name\": \"X\"\x7d")]) =
      ⟨(runBatch ["company_name"]
          [("a.pdf", .text "\x7b\"company_name\": \"Acme\"\x7d")]).rows ++
        (runBatch ["company_name"]
          [("d.pdf", .text "\x7b\"company_name\": \"X\"\x7d")]).rows,
       (runBatch ["company_name"]
          [("a.pdf", .text "\x7b\"company_name\": \"Acme\"\x7d")]).processed ++
        (runBatch ["company_name"]
          [("d.pdf", .text "\x7b\"company_name\": \"X\"\x7d")]).processed,
       (runBatch ["company_name"]
          [("a.pdf", .text "\x7b\"company_name\": \"Acme\"\x7d")]).failed ++
        "b.pdf" :: (runBatch ["company_name"]
          [("d.pdf", .text "\x7b\"company_name\": \"X\"\x7d")]).failed,
       (runBatch ["company_name"]
          [("a.pdf", .text "\x7b\"company_name\": \"Acme\"\x7d")]).attempted ++
        "b.pdf" :: (runBatch ["company_name"]
          [("d.pdf", .text "\x7b\"company_name\": \"X\"\x7d")]).attempted,
       none⟩ :=
  ⟨⟨by decide, by decide⟩,
   batch_error_isolated ["company_name"]
     [("a.pdf", .text "\x7b\"company_name\": \"Acme\"\x7d")]
     [("d.pdf", .text "\x7b\"company_name\": \"X\"\x7d")]
     "b.pdf" "boom" (by decide) (by decide)⟩

/-- C4 (confirmed): after any retry — even one aborted by an uncaught
exception — the attempted names and the recorded still-failed names are
subsets of the input failure list, and the session's failure set after a
retry is a subset of what it was before. -/
theorem retry_subset (selected : List String)
    (uploaded : List (String × ModelOutcome)) (s : SessionState) :
    (∀ n ∈ (runRetry selected uploaded s.failed).attempted, n ∈ s.failed) ∧
    (∀ n ∈ (runRetry selected uploaded s.failed).failed, n ∈ s.failed) ∧
    (∀ n ∈ (runRetrySession s selected uploaded).failed, n ∈ s.failed) := by
  refine ⟨runRetry_attempted_subset selected uploaded s.failed,
          runRetry_failed_subset selected uploaded s.failed, ?_⟩
  intro n hn
  unfold runRetrySession at hn
  simp only at hn
  cases hc : (runRetry selected uploaded s.failed).crash with
  | none => rw [hc] at hn; exact runRetry_failed_subset selected uploaded s.failed n hn
  | some m => rw [hc] at hn; exact hn

/-- C4 (witness): a retry over `["b.pdf"]` where the document still
fails. -/
theorem retry_subset_witness :
    "b.pdf" ∈ (runRetry ["company_name"] [("b.pdf", .text "0")]
      (SessionState.mk [] ["b.pdf"]).failed).failed ∧
    "b.pdf" ∈ (SessionState.mk [] ["b.pdf"]).failed :=
  ⟨by decide,
   (retry_subset ["company_name"] [("b.pdf", .text "0")]
      (SessionState.mk [] ["b.pdf"])).2.1 "b.pdf" (by decide)⟩

/-- C5 (code bug): a failed name with no matching uploaded file is
silently dropped by the retry loop (the inner `for`/`break` finds no
match and the name is appended to neither `results` nor `new_failures`),
so it does NOT remain in the still-failed set, contradicting the spec's
"it is treated as a failure and remains in `still_failed`". -/
theorem retry_drops_unresolved :
    (runRetry ["company_name"] [] ["ghost.pdf"]).failed = [] ∧
    (runRetrySession (SessionState.mk [] ["ghost.pdf"]) ["company_name"] []).failed = [] ∧
    "ghost.pdf" ∉
      (runRetrySession (SessionState.mk [] ["ghost.pdf"]) ["company_name"] []).failed := by
  decide

/-- C3 (confirmed): a reply whose cleaned text does not parse as JSON
makes `extract_structured_data` return `None` through the
`json.JSONDecodeError` handler — a reported per-document failure carrying
the response text, not an uncaught exception — and in any crash-free
batch containing that document (names distinct) the document's name joins
the failure list and appears in no success row. -/
theorem malformed_reply_failure (selected : List String) (name t : String)
    (pre post : List (String × ModelOutcome))
    (hknown : fieldsKnown selected = true)
    (hparse : jsonParse (cleanResponse t) = none)
    (hnd : ((pre ++ (name, .text t) :: post).map Prod.fst).Nodup)
    (hcrash : (runBatch selected (pre ++ (name, .text t) :: post)).crash = none) :
    extract_structured_data selected (.text t) = .jsonDecodeError (cleanResponse t) ∧
    name ∈ (runBatch selected (pre ++ (name, .text t) :: post)).failed ∧
    name ∉ (runBatch selected (pre ++ (name, .text t) :: post)).rows.map Row.fileName := by
  have hstep := processDoc_parse_none selected name t hknown hparse
  have hpre := runBatch_crash_of_append selected pre _ hcrash
  have hmid : runBatch selected ((name, ModelOutcome.text t) :: post) =
      ⟨(runBatch selected post).rows, (runBatch selected post).processed,
       name :: (runBatch selected post).failed,
       name :: (runBatch selected post).attempted,
       (runBatch selected post).crash⟩ := by
    simp [runBatch, hstep]
  have happ := runBatch_append selected pre ((name, .text t) :: post) hpre
  have hfail : name ∈ (runBatch selected (pre ++ (name, .text t) :: post)).failed := by
    rw [happ, hmid]
    simp
  refine ⟨extract_text_parse_none selected t hknown hparse, hfail, ?_⟩
  have hperm := runBatch_perm selected _ hcrash
  have hnd2 := hperm.symm.nodup hnd
  rw [List.nodup_append] at hnd2
  exact fun hr => hnd2.2.2 hr hfail

/-- C3 (witness): the spec's own example reply, `"not json at all"`,
which is unchanged by cleaning. -/
theorem malformed_reply_failure_witness :
    (fieldsKnown ["company_name"] = true ∧
     jsonParse (cleanResponse "not json at all") = none ∧
     (([] ++ ("a.pdf", ModelOutcome.text "not json at all") :: []).map Prod.fst).Nodup ∧
     (runBatch ["company_name"]
       ([] ++ ("a.pdf", .text "not json at all") :: [])).crash = none ∧
     cleanResponse "not json at all" = "not json at all") ∧
    (extract_structured_data ["company_name"] (.text "not json at all") =
      .jsonDecodeError (cleanResponse "not json at all") ∧
     "a.pdf" ∈ (runBatch ["company_name"]
       ([] ++ ("a.pdf", .text "not json at all") :: [])).failed ∧
     "a.pdf" ∉ (runBatch ["company_name"]
       ([] ++ ("a.pdf", .text "not json at all") :: [])).rows.map Row.fileName) :=
  ⟨⟨rfl, rfl, by decide, by decide, by decide⟩,
   malformed_reply_failure ["company_name"] "a.pdf" "not json at all" [] []
     rfl rfl (by decide) (by decide)⟩

/-- C6 (confirmed): for a successful extraction whose parsed value is an
object, the row holds, for each selected field, the object's value when
the key is present and the `"Not Found"` sentinel when it is absent. -/
theorem row_sentinel_substitution (name : String) (selected : List String)
    (entries : List (String × Json)) (f : String) (hf : f ∈ selected) :
    buildRow name selected (.obj entries) =
      .ok ⟨name, selected.map
        (fun g => (g, (objGet entries g).getD (.str "Not Found")))⟩ ∧
    (objGet entries f = none →
      rowValue ⟨name, selected.map
        (fun g => (g, (objGet entries g).getD (.str "Not Found")))⟩ f =
          some (.str "Not Found")) ∧
    (∀ v, objGet entries f = some v →
      rowValue ⟨name, selected.map
        (fun g => (g, (objGet entries g).getD (.str "Not Found")))⟩ f = some v) := by
  have hrv := rowValue_map name selected
    (fun g => (objGet entries g).getD (.str "Not Found")) f hf
  refine ⟨buildRow_obj name selected entries, ?_, ?_⟩
  · intro h0
    rw [hrv]
    simp [h0]
  · intro v hv
    rw [hrv]
    simp [hv]

/-- C6 (witness): two selected fields, an object carrying only the
first. -/
theorem row_sentinel_substitution_witness :
    ("invoice_number" ∈ ["company_name", "invoice_number"] ∧
     objGet [("company_name", Json.str "Acme")] "invoice_number" = none ∧
     objGet [("company_name", Json.str "Acme")] "company_name" = some (.str "Acme")) ∧
    (buildRow "a.pdf" ["company_name", "invoice_number"]
        (.obj [("company_name", Json.str "Acme")]) =
      .ok ⟨"a.pdf", ["company_name", "invoice_number"].map
        (fun g => (g, (objGet [("company_name", Json.str "Acme")] g).getD
          (.str "Not Found")))⟩ ∧
     (objGet [("company_name", Json.str "Acme")] "invoice_number" = none →
       rowValue ⟨"a.pdf", ["company_name", "invoice_number"].map
         (fun g => (g, (objGet [("company_name", Json.str "Acme")] g).getD
           (.str "Not Found")))⟩ "invoice_number" = some (.str "Not Found")) ∧
     (∀ v, objGet [("company_name", Json.str "Acme")] "invoice_number" = some v →
       rowValue ⟨"a.pdf", ["company_name", "invoice_number"].map
         (fun g => (g, (objGet [("company_name", Json.str "Acme")] g).getD
           (.str "Not Found")))⟩ "invoice_number" = some v)) :=
  ⟨⟨by decide, rfl, rfl⟩,
   row_sentinel_substitution "a.pdf" ["company_name", "invoice_number"]
     [("company_name", Json.str "Acme")] "invoice_number" (by decide)⟩

/-- A list that starts and ends with non-whitespace characters is left
unchanged by Python's `strip`. -/
theorem pyStripList_wrap (mid pre post : List Char)
    (hpre : ∃ a t, pre = a :: t ∧ pyWhitespace a = false)
    (hpost : ∃ b u, post.reverse = b :: u ∧ pyWhitespace b = false) :
    pyStripList (pre ++ mid ++ post) = pre ++ mid ++ post := by
  obtain ⟨a, t, hpre1, hpre2⟩ := hpre
  obtain ⟨b, u, hpost1, hpost2⟩ := hpost
  unfold pyStripList
  have h1 : (pre ++ mid ++ post).dropWhile pyWhitespace = pre ++ mid ++ post := by
    rw [hpre1, List.cons_append, List.cons_append]
    simp [List.dropWhile_cons, hpre2]
  have h2 : (pre ++ mid ++ post).reverse.dropWhile pyWhitespace =
      (pre ++ mid ++ post).reverse := by
    rw [List.reverse_append, hpost1, List.cons_append]
    simp [List.dropWhile_cons, hpost2]
  rw [h1, h2, List.reverse_reverse]

/-- C7 (counterexample): the claim fails as stated.  The typical fenced
reply `"```json\n...\n```"` is wrapped in fence markers, but the cleaning
step does not yield the enclosed content `"\n...\n"`: it additionally
strips the surrounding whitespace of the content, returning `"..."`. -/
theorem fence_strip_cex :
    "```json\n\x7b\"a\": 1\x7d\n```" =
      "```json" ++ "\n\x7b\"a\": 1\x7d\n" ++ "```" ∧
    cleanResponse "```json\n\x7b\"a\": 1\x7d\n```" = "\x7b\"a\": 1\x7d" ∧
    cleanResponse "```json\n\x7b\"a\": 1\x7d\n```" ≠ "\n\x7b\"a\": 1\x7d\n" := by
  refine ⟨rfl, by decide, by decide⟩

/-- C7 (amended): for a reply that is exactly a fence marker, enclosed
content, and a closing marker, the cleaning step removes exactly the
marker sequences and then strips surrounding whitespace from the
enclosed content; in particular, content with no leading or trailing
whitespace is returned verbatim. -/
theorem fence_strip_exact (c : String) :
    (cleanResponse (fenceJson ++ c ++ fence) = pyStrip c ∧
      (pyStrip c = c → cleanResponse (fenceJson ++ c ++ fence) = c)) ∧
    (¬ fenceJson.data.isPrefixOf (fence.data ++ c.data ++ fence.data) →
      cleanResponse (fence ++ c ++ fence) = pyStrip c ∧
        (pyStrip c = c → cleanResponse (fence ++ c ++ fence) = c)) := by
  have hwrapJ : pyStripList (fenceJson.data ++ c.data ++ fence.data) =
      fenceJson.data ++ c.data ++ fence.data :=
    pyStripList_wrap c.data fenceJson.data fence.data
      ⟨'\x60', ['\x60', '\x60', 'j', 's', 'o', 'n'], by decide, by decide⟩
      ⟨'\x60', ['\x60', '\x60'], by decide, by decide⟩
  have hwrapG : pyStripList (fence.data ++ c.data ++ fence.data) =
      fence.data ++ c.data ++ fence.data :=
    pyStripList_wrap c.data fence.data fence.data
      ⟨'\x60', ['\x60', '\x60'], by decide, by decide⟩
      ⟨'\x60', ['\x60', '\x60'], by decide, by decide⟩
  have hsliceJ : pySliceDrop (fenceJson.data ++ c.data ++ fence.data) 7 3 = c.data := by
    unfold pySliceDrop
    have hd : (fenceJson.data ++ c.data ++ fence.data).drop 7 = c.data ++ fence.data := by
      rw [List.append_assoc]
      exact List.drop_left' (by decide)
    have hlen : (fenceJson.data ++ c.data ++ fence.data).length - 7 - 3 =
        c.data.length := by
      have h7 : fenceJson.data.length = 7 := by decide
      have h3 : fence.data.length = 3 := by decide
      simp only [List.length_append, h7, h3]
      omega
    rw [hd, hlen, List.take_left]
  have hsliceG : pySliceDrop (fence.data ++ c.data ++ fence.data) 3 3 = c.data := by
    unfold pySliceDrop
    have hd : (fence.data ++ c.data ++ fence.data).drop 3 = c.data ++ fence.data := by
      rw [List.append_assoc]
      exact List.drop_left' (by decide)
    have hlen : (fence.data ++ c.data ++ fence.data).length - 3 - 3 =
        c.data.length := by
      have h3 : fence.data.length = 3 := by decide
      simp only [List.length_append, h3]
      omega
    rw [hd, hlen, List.take_left]
  have hdataJ : (fenceJson ++ c ++ fence).data =
      fenceJson.data ++ c.data ++ fence.data := by
    simp [String.data_append]
  have hdataG : (fence ++ c ++ fence).data =
      fence.data ++ c.data ++ fence.data := by
    simp [String.data_append]
  have hprefJ : fenceJson.data.isPrefixOf
      (fenceJson.data ++ c.data ++ fence.data) = true := by
    rw [ List.isPrefixOf_iff_prefix, List.append_assoc]
    exact List.prefix_append _ _
  have hprefG : fence.data.isPrefixOf
      (fence.data ++ c.data ++ fence.data) = true := by
    rw [ List.isPrefixOf_iff_prefix, List.append_assoc]
    exact List.prefix_append _ _
  have hmainJ : cleanResponse (fenceJson ++ c ++ fence) = pyStrip c := by
    unfold cleanResponse cleanList
    rw [hdataJ, hwrapJ, if_pos hprefJ, hsliceJ]
    rfl
  constructor
  · exact ⟨hmainJ, fun hc => hmainJ.trans hc⟩
  · intro hnj
    have hmainG : cleanResponse (fence ++ c ++ fence) = pyStrip c := by
      unfold cleanResponse cleanList
      rw [hdataG, hwrapG, if_neg hnj, if_pos hprefG, hsliceG]
      rfl
    exact ⟨hmainG, fun hc => hmainG.trans hc⟩

/-- C7 (witness): content with no surrounding whitespace is returned
verbatim from both fence forms. -/
theorem fence_strip_exact_witness :
    (pyStrip "\x7b\"a\": 1\x7d" = "\x7b\"a\": 1\x7d" ∧
     ¬ fenceJson.data.isPrefixOf
        (fence.data ++ ("\x7b\"a\": 1\x7d" : String).data ++ fence.data)) ∧
    cleanResponse (fenceJson ++ "\x7b\"a\": 1\x7d" ++ fence) = "\x7b\"a\": 1\x7d" ∧
    cleanResponse (fence ++ "\x7b\"a\": 1\x7d" ++ fence) = "\x7b\"a\": 1\x7d" :=
  ⟨⟨by decide, by decide⟩,
   (fence_strip_exact "\x7b\"a\": 1\x7d").1.2 (by decide),
   ((fence_strip_exact "\x7b\"a\": 1\x7d").2 (by decide)).2 (by decide)⟩

/-- C9 (confirmed): exporting the result rows as the CSV flat file —
header row `"File Name"` followed by the selected field identifiers,
then one record per row, with standard minimal quoting — and re-parsing
the file with standard CSV rules reconstructs exactly the same grid of
(document name, field value) strings, for arbitrary cell contents
including commas, quotes and embedded newlines. -/
theorem csv_round_trip_rows (selected : List String)
    (rows : List (String × List String)) :
    parseCSV (toCSV (("File Name" :: selected) :: rows.map (fun r => r.1 :: r.2))) =
      some (("File Name" :: selected) :: rows.map (fun r => r.1 :: r.2)) := by
  have hne : ∀ r ∈ ((("File Name" :: selected) :: rows.map (fun r => r.1 :: r.2)).map
      (fun r => r.map String.data)), r ≠ [] := by
    intro r hr
    rw [List.mem_map] at hr
    obtain ⟨r0, hr0, rfl⟩ := hr
    rcases List.mem_cons.mp hr0 with h1 | h1
    · subst h1; simp
    · rw [List.mem_map] at h1
      obtain ⟨p, hp, rfl⟩ := h1
      simp
  have hkey := parseTable_encode
    ((("File Name" :: selected) :: rows.map (fun r => r.1 :: r.2)).map
      (fun r => r.map String.data)) hne
    ((encodeTable ((("File Name" :: selected) :: rows.map (fun r => r.1 :: r.2)).map
      (fun r => r.map String.data))).length + 1) (Nat.lt_succ_self _)
  have hmkdata : ∀ (r : List String), (r.map String.data).map String.mk = r := by
    intro r
    induction r with
    | nil => rfl
    | cons x xs ih => simp [ih]
  unfold parseCSV toCSV
  rw [show (String.mk (encodeTable ((("File Name" :: selected) ::
      rows.map (fun r => r.1 :: r.2)).map (fun r => r.map String.data)))).data =
      encodeTable ((("File Name" :: selected) ::
        rows.map (fun r => r.1 :: r.2)).map (fun r => r.map String.data)) from rfl]
  rw [hkey]
  simp only [Option.map_some']
  congr 1
  rw [List.map_map]
  have hcomp : ∀ r ∈ (("File Name" :: selected) :: rows.map (fun r => r.1 :: r.2)),
      ((fun r => List.map String.mk r) ∘ (fun r => List.map String.data r)) r = id r := by
    intro r _
    simp only [Function.comp_apply, id_eq]
    exact hmkdata r
  rw [List.map_congr_left hcomp, List.map_id]

/-- C10 (confirmed): a reply that parses to a falsy JSON value is a
successful parse (`extract_structured_data` returns the value, not an
error), yet the batch loop's `if extracted_data:` truthiness test sends
the document to the failure list. -/
theorem falsy_json_failure (selected : List String) (name t : String) (j : Json)
    (pre post : List (String × ModelOutcome))
    (hknown : fieldsKnown selected = true)
    (hparse : jsonParse (cleanResponse t) = some j)
    (hfalsy : pyTruthy j = false)
    (hpre : (runBatch selected pre).crash = none) :
    extract_structured_data selected (.text t) = .value j ∧
    name ∈ (runBatch selected (pre ++ (name, .text t) :: post)).failed := by
  have hstep := processDoc_falsy selected name t j hknown hparse hfalsy
  have hmid : runBatch selected ((name, ModelOutcome.text t) :: post) =
      ⟨(runBatch selected post).rows, (runBatch selected post).processed,
       name :: (runBatch selected post).failed,
       name :: (runBatch selected post).attempted,
       (runBatch selected post).crash⟩ := by
    simp [runBatch, hstep]
  have happ := runBatch_append selected pre ((name, .text t) :: post) hpre
  refine ⟨extract_text_parse_some selected t j hknown hparse, ?_⟩
  rw [happ, hmid]
  simp

/-- C10 (witness): the empty-object reply, which parses to the falsy
`\x7b\x7d` and fails the batch entry for its document. -/
theorem falsy_json_failure_witness :
    (fieldsKnown ["company_name"] = true ∧
     jsonParse (cleanResponse "\x7b\x7d") = some (.obj []) ∧
     pyTruthy (.obj []) = false ∧
     (runBatch ["company_name"] []).crash = none) ∧
    (extract_structured_data ["company_name"] (.text "\x7b\x7d") = .value (.obj []) ∧
     "a.pdf" ∈ (runBatch ["company_name"]
       ([] ++ ("a.pdf", .text "\x7b\x7d") :: [])).failed) :=
  ⟨⟨rfl, rfl, rfl, rfl⟩,
   falsy_json_failure ["company_name"] "a.pdf" "\x7b\x7d" (.obj []) [] []
     rfl rfl rfl rfl⟩

/-- C8 (counterexample): the claim fails as stated.  Lines 109–111 reset
`results` and `failed_files` but NOT `processed_files`: in a session
whose processed set already holds `a.pdf`, a new run in which `a.pdf`
now fails leaves `a.pdf` in both the processed set and the failed set —
the state was not reset, and the at-most-one invariant is violated. -/
theorem session_reset_cex :
    "a.pdf" ∈ (runBatchSession (SessionState.mk ["a.pdf"] [])
      ["company_name"] [("a.pdf", .text "nope")]).processed ∧
    "a.pdf" ∈ (runBatchSession (SessionState.mk ["a.pdf"] [])
      ["company_name"] [("a.pdf", .text "nope")]).failed := by
  decide

/-- C8 (amended): only the rows and the failure set are reset at the
start of a batch run — the processed set persists and accumulates.  On a
session whose processed set starts empty, a crash-free run over
documents with distinct names puts every attempted name in exactly one
of the processed set and the failed set, with their union equal to the
attempted names; a crash-free retry in which every failed name resolves
to an uploaded file preserves the disjointness and preserves the union
of the two sets. -/
theorem session_invariant :
    (∀ (s : SessionState) (selected : List String)
        (docs : List (String × ModelOutcome)),
      (runBatchSession s selected docs).failed = (runBatch selected docs).failed ∧
      (runBatchSession s selected docs).processed =
        s.processed ++ (runBatch selected docs).processed) ∧
    (∀ (selected : List String) (docs : List (String × ModelOutcome)),
      (docs.map Prod.fst).Nodup →
      (runBatch selected docs).crash = none →
      (∀ n, ¬(n ∈ (runBatchSession (SessionState.mk [] []) selected docs).processed ∧
              n ∈ (runBatchSession (SessionState.mk [] []) selected docs).failed)) ∧
      (∀ n, (n ∈ (runBatchSession (SessionState.mk [] []) selected docs).processed ∨
             n ∈ (runBatchSession (SessionState.mk [] []) selected docs).failed) ↔
            n ∈ (runBatch selected docs).attempted)) ∧
    (∀ (s : SessionState) (selected : List String)
        (uploaded : List (String × ModelOutcome)),
      (∀ n, ¬(n ∈ s.processed ∧ n ∈ s.failed)) →
      (∀ n ∈ s.failed, (lookupUploaded uploaded n).isSome) →
      (runRetry selected uploaded s.failed).crash = none →
      (∀ n, ¬(n ∈ (runRetrySession s selected uploaded).processed ∧
              n ∈ (runRetrySession s selected uploaded).failed)) ∧
      (∀ n, (n ∈ (runRetrySession s selected uploaded).processed ∨
             n ∈ (runRetrySession s selected uploaded).failed) ↔
            (n ∈ s.processed ∨ n ∈ s.failed))) := by
  refine ⟨fun s selected docs => ⟨rfl, rfl⟩, ?_, ?_⟩
  · intro selected docs hnd hcrash
    have hproc : (runBatchSession (SessionState.mk [] []) selected docs).processed =
        (runBatch selected docs).rows.map Row.fileName := by
      show [] ++ (runBatch selected docs).processed = _
      rw [List.nil_append, runBatch_processed_eq]
    have hfail : (runBatchSession (SessionState.mk [] []) selected docs).failed =
        (runBatch selected docs).failed := rfl
    have hperm := runBatch_perm selected docs hcrash
    have hnd2 := hperm.symm.nodup hnd
    rw [List.nodup_append] at hnd2
    constructor
    · rintro n ⟨h1, h2⟩
      rw [hproc] at h1
      rw [hfail] at h2
      exact hnd2.2.2 h1 h2
    · intro n
      rw [hproc, hfail, runBatch_attempted_eq selected docs hcrash]
      constructor
      · rintro (h | h)
        · exact hperm.subset (List.mem_append_left _ h)
        · exact hperm.subset (List.mem_append_right _ h)
      · intro h
        rcases List.mem_append.mp (hperm.symm.subset h) with h1 | h1
        · exact Or.inl h1
        · exact Or.inr h1
  · intro s selected uploaded hdisj hres hcrash
    have hsfail : (runRetrySession s selected uploaded).failed =
        (runRetry selected uploaded s.failed).failed := by
      unfold runRetrySession
      simp only [hcrash]
    have hsproc : (runRetrySession s selected uploaded).processed =
        s.processed ++ (runRetry selected uploaded s.failed).processed := rfl
    constructor
    · rintro n ⟨h1, h2⟩
      rw [hsfail] at h2
      rw [hsproc] at h1
      rcases List.mem_append.mp h1 with hp | hp
      · exact hdisj n ⟨hp, runRetry_failed_subset selected uploaded s.failed n h2⟩
      · obtain ⟨_, o, ho, row, hrow⟩ :=
          (runRetry_mem_processed selected uploaded s.failed hcrash n).mp hp
        obtain ⟨_, o2, ho2, hfail2⟩ :=
          (runRetry_mem_failed selected uploaded s.failed hcrash n).mp h2
        rw [ho] at ho2
        injection ho2 with ho3
        rw [← ho3, hrow] at hfail2
        exact absurd hfail2 (by simp)
    · intro n
      rw [hsproc, hsfail]
      constructor
      · rintro (h | h)
        · rcases List.mem_append.mp h with hp | hp
          · exact Or.inl hp
          · exact Or.inr ((runRetry_mem_processed selected uploaded
              s.failed hcrash n).mp hp).1
        · exact Or.inr (runRetry_failed_subset selected uploaded s.failed n h)
      · rintro (h | h)
        · exact Or.inl (List.mem_append_left _ h)
        · obtain ⟨o, ho⟩ := Option.isSome_iff_exists.mp (hres n h)
          have hnc := runRetry_no_crash selected uploaded s.failed hcrash n h o ho
          cases hp : processDoc selected n o with
          | addRow row =>
            exact Or.inl (List.mem_append_right _
              ((runRetry_mem_processed selected uploaded s.failed hcrash n).mpr
                ⟨h, o, ho, row, hp⟩))
          | addFail =>
            exact Or.inr ((runRetry_mem_failed selected uploaded
              s.failed hcrash n).mpr ⟨h, o, ho, hp⟩)
          | crashed m => exact absurd hp (hnc m)

/-- C8 (witness): a fresh session, a crash-free two-document run with one
success and one failure, then a retry in which the failed document now
succeeds. -/
theorem session_invariant_witness :
    ((([("a.pdf", ModelOutcome.text "\x7b\"company_name\": \"Acme\"\x7d"),
        ("b.pdf", ModelOutcome.text "oops")].map Prod.fst).Nodup ∧
      (runBatch ["company_name"]
        [("a.pdf", .text "\x7b\"company_name\": \"Acme\"\x7d"),
         ("b.pdf", .text "oops")]).crash = none) ∧
     (∀ n, ¬(n ∈ (runBatchSession (SessionState.mk [] []) ["company_name"]
          [("a.pdf", .text "\x7b\"company_name\": \"Acme\"\x7d"),
           ("b.pdf", .text "oops")]).processed ∧
        n ∈ (runBatchSession (SessionState.mk [] []) ["company_name"]
          [("a.pdf", .text "\x7b\"company_name\": \"Acme\"\x7d"),
           ("b.pdf", .text "oops")]).failed)) ∧
     (∀ n, (n ∈ (runBatchSession (SessionState.mk [] []) ["company_name"]
          [("a.pdf", .text "\x7b\"company_name\": \"Acme\"\x7d"),
           ("b.pdf", .text "oops")]).processed ∨
         n ∈ (runBatchSession (SessionState.mk [] []) ["company_name"]
          [("a.pdf", .text "\x7b\"company_name\": \"Acme\"\x7d"),
           ("b.pdf", .text "oops")]).failed) ↔
        n ∈ (runBatch ["company_name"]
          [("a.pdf", .text "\x7b\"company_name\": \"Acme\"\x7d"),
           ("b.pdf", .text "oops")]).attempted)) :=
  ⟨⟨by decide, by decide⟩,
   (session_invariant.2.1 ["company_name"]
     [("a.pdf", .text "\x7b\"company_name\": \"Acme\"\x7d"),
      ("b.pdf", .text "oops")] (by decide) (by decide)).1,
   (session_invariant.2.1 ["company_name"]
     [("a.pdf", .text "\x7b\"company_name\": \"Acme\"\x7d"),
      ("b.pdf", .text "oops")] (by decide) (by decide)).2⟩

end App
